import Mathlib

/-!
Verification development for the Twilio / OpenAI realtime bridge
(`app/bridge.py` of the TwilioOpenAI repository).

The bridge's per-call mutable state and its event handlers
(`_receive_from_twilio` dispatch, `_handle_audio_delta`, `_send_mark`,
`_handle_speech_started_event`, `shutdown`) are embedded shallowly as pure
Lean functions: each handler maps a `BridgeState` and an already-parsed
event to a new state plus the frames written to the caller (Twilio) socket
and the messages written to the speech-service (OpenAI) socket.

Audio payloads are modelled down to the byte level: `b64decodeStr` follows
CPython's non-strict `binascii.a2b_base64` (invalid characters skipped,
padding handled mid-stream, early termination once a quad is completed by
padding, error on a trailing partial quad), which is what
`base64.b64decode` calls in `_handle_audio_delta`; `b64encodeStr` is
standard base64 encoding as produced by `base64.b64encode`.
-/

namespace TwilioOpenAI

/-- Value of a character in the standard base64 alphabet, `none` for every
character outside the alphabet (mirrors CPython's `table_a2b_base64`). -/
def b64Val (c : Char) : Option Nat :=
  if 'A' ≤ c ∧ c ≤ 'Z' then some (c.toNat - 65)
  else if 'a' ≤ c ∧ c ≤ 'z' then some (c.toNat - 97 + 26)
  else if '0' ≤ c ∧ c ≤ '9' then some (c.toNat - 48 + 52)
  else if c = '+' then some 62
  else if c = '/' then some 63
  else none

/-- Character of the standard base64 alphabet at index `n` (for `n < 64`). -/
def b64Char (n : Nat) : Char :=
  if n < 26 then Char.ofNat (65 + n)
  else if n < 52 then Char.ofNat (71 + n)
  else if n < 62 then Char.ofNat (n - 4)
  else if n = 62 then '+'
  else '/'

/-- Core loop of CPython's `binascii.a2b_base64` in non-strict mode:
`quadPos` is the position inside the current 4-character quad, `leftchar`
the pending bits, `pads` the count of padding characters seen against the
current quad, `acc` the bytes produced so far (reversed).  A `'='` with
`quadPos ≥ 2` that completes the quad ends decoding successfully; a `'='`
earlier in a quad is ignored; characters outside the alphabet are skipped;
input ending inside a quad is an error (`Incorrect padding`). -/
def b64DecodeAux : List Char → Nat → Nat → Nat → List Nat → Option (List Nat)
  | [], quadPos, _, _, acc => if quadPos = 0 then some acc.reverse else none
  | c :: rest, quadPos, leftchar, pads, acc =>
    if c = '=' then
      if 2 ≤ quadPos then
        if 4 ≤ quadPos + pads + 1 then some acc.reverse
        else b64DecodeAux rest quadPos leftchar (pads + 1) acc
      else b64DecodeAux rest quadPos leftchar pads acc
    else
      match b64Val c with
      | none => b64DecodeAux rest quadPos leftchar pads acc
      | some v =>
        match quadPos with
        | 0 => b64DecodeAux rest 1 v 0 acc
        | 1 => b64DecodeAux rest 2 (v % 16) 0 ((leftchar * 4 + v / 16) :: acc)
        | 2 => b64DecodeAux rest 3 (v % 4) 0 ((leftchar * 16 + v / 4) :: acc)
        | _ => b64DecodeAux rest 0 0 0 ((leftchar * 64 + v) :: acc)

/-- Python's `base64.b64decode(payload)` for a `str` payload: the string is
first encoded to ASCII (a non-ASCII character raises), then fed to the
non-strict `a2b_base64` loop.  `none` models a raised exception. -/
def b64decodeStr (p : String) : Option (List Nat) :=
  if p.toList.all (fun c => decide (c.toNat < 128)) then
    b64DecodeAux p.toList 0 0 0 []
  else none

/-- Standard base64 encoding of a byte list, three bytes per four output
characters with `'='` padding, as produced by `base64.b64encode`. -/
def b64EncodeChunks : List Nat → List Char
  | [] => []
  | [b1] => [b64Char (b1 / 4), b64Char (b1 % 4 * 16), '=', '=']
  | [b1, b2] =>
      [b64Char (b1 / 4), b64Char (b1 % 4 * 16 + b2 / 16),
       b64Char (b2 % 16 * 4), '=']
  | b1 :: b2 :: b3 :: rest =>
      b64Char (b1 / 4) :: b64Char (b1 % 4 * 16 + b2 / 16) ::
      b64Char (b2 % 16 * 4 + b3 / 64) :: b64Char (b3 % 64) ::
      b64EncodeChunks rest

/-- Python's `base64.b64encode(decoded).decode("utf-8")`. -/
def b64encodeStr (bs : List Nat) : String :=
  String.mk (b64EncodeChunks bs)

/-- Per-call mutable state of `TwilioRealtimeBridge` as set up in
`__init__` and mutated by the handlers.  `openai_ws` is `none` when no
speech-service socket object exists, `some b` when it exists with `b`
recording whether its state is `OPEN`. -/
structure BridgeState where
  stream_sid : Option String
  latest_media_timestamp : Int
  last_assistant_item : Option String
  mark_queue : List String
  response_start_timestamp_twilio : Option Int
  openai_ws : Option Bool
deriving DecidableEq, Repr

/-- Frames written to the caller (Twilio) socket.  The `streamSid` field is
recorded exactly as the code writes it, i.e. the current value of
`self.stream_sid` (an `Option String`). -/
inductive TwilioFrame where
  | media (streamSid : Option String) (payload : String)
  | mark (streamSid : Option String) (name : String)
  | clear (streamSid : Option String)
deriving DecidableEq, Repr

/-- Messages written to the speech-service (OpenAI) socket by the two relay
loops. -/
inductive OpenAIMsg where
  | audioAppend (audio : String)
  | truncate (item_id : String) (content_index : Nat) (audio_end_ms : Int)
deriving DecidableEq, Repr

/-- Inbound caller-socket events after JSON parsing, keyed by the `event`
discriminator read in `_receive_from_twilio`. -/
inductive TwilioEvent where
  | media (timestamp : Int) (payload : String)
  | start (streamSid : String)
  | mark (name : String)
  | other (event : String)
deriving DecidableEq, Repr

/-- Inbound speech-service events after JSON parsing, keyed by the `type`
discriminator read in `_send_to_twilio`.  `audioDelta` stands for a
`response.output_audio.delta` event that does carry a `delta` key; a delta
event without a `delta` key is never handled and falls under `other`. -/
inductive OpenAIEvent where
  | audioDelta (delta : String) (item_id : Option String)
  | speechStarted
  | other (type_name : String)
deriving DecidableEq, Repr

/-- An event arriving on either socket. -/
inductive BridgeEvent where
  | fromTwilio (e : TwilioEvent)
  | fromOpenAI (e : OpenAIEvent)
deriving DecidableEq, Repr

/-- Python truthiness of an optional string (`None` and `""` are falsy). -/
def truthyStr : Option String → Bool
  | none => false
  | some s => decide (s ≠ "")

/-- Result of one handler invocation: the new state and the writes made to
each socket, in program order. -/
structure StepResult where
  state : BridgeState
  toTwilio : List TwilioFrame
  toOpenAI : List OpenAIMsg
deriving DecidableEq, Repr

/-- `TwilioRealtimeBridge._send_mark`: guarded by `stream_sid` truthiness,
sends the `responsePart` mark frame and appends to `mark_queue`. -/
def send_mark (s : BridgeState) : BridgeState × List TwilioFrame :=
  if truthyStr s.stream_sid = true then
    ({ s with mark_queue := s.mark_queue ++ ["responsePart"] },
     [TwilioFrame.mark s.stream_sid "responsePart"])
  else (s, [])

/-- `TwilioRealtimeBridge._handle_audio_delta`: early return when
`stream_sid` is falsy; decode failure is logged and dropped; otherwise the
re-encoded payload is sent as a media frame, the utterance-start bookkeeping
runs when `item_id` is truthy and differs from `last_assistant_item`, and a
mark is sent via `_send_mark`. -/
def handle_audio_delta (s : BridgeState) (delta : String)
    (item_id : Option String) : StepResult :=
  if truthyStr s.stream_sid = false then ⟨s, [], []⟩
  else
    match b64decodeStr delta with
    | none => ⟨s, [], []⟩
    | some decoded =>
      let audio_payload := b64encodeStr decoded
      let mediaFrame := TwilioFrame.media s.stream_sid audio_payload
      let s1 :=
        if truthyStr item_id = true ∧ item_id ≠ s.last_assistant_item then
          { s with
            response_start_timestamp_twilio := some s.latest_media_timestamp,
            last_assistant_item := item_id }
        else s
      let m := send_mark s1
      ⟨m.1, mediaFrame :: m.2, []⟩

/-- `TwilioRealtimeBridge._handle_speech_started_event`: early return when
`mark_queue` is empty or `response_start_timestamp_twilio` is `None`;
otherwise computes the elapsed time, sends the truncate instruction when
`last_assistant_item` is truthy and the speech-service socket object exists,
sends the clear frame (with whatever `stream_sid` currently holds), and
resets the barge-in state. -/
def handle_speech_started (s : BridgeState) : StepResult :=
  match s.mark_queue, s.response_start_timestamp_twilio with
  | [], _ => ⟨s, [], []⟩
  | _ :: _, none => ⟨s, [], []⟩
  | _ :: _, some t0 =>
    let elapsed := s.latest_media_timestamp - t0
    let truncMsgs :=
      match s.last_assistant_item with
      | some u =>
        if u ≠ "" ∧ s.openai_ws.isSome = true then
          [OpenAIMsg.truncate u 0 elapsed]
        else []
      | none => []
    ⟨{ s with
        mark_queue := [],
        last_assistant_item := none,
        response_start_timestamp_twilio := none },
     [TwilioFrame.clear s.stream_sid], truncMsgs⟩

/-- Event dispatch of `TwilioRealtimeBridge._receive_from_twilio`: `media`
is forwarded only while the speech-service socket state is `OPEN`; `start`
stores the new `streamSid` and resets the per-stream fields; `mark` pops
the front of a non-empty `mark_queue`; anything else is ignored. -/
def handle_twilio_event (s : BridgeState) : TwilioEvent → StepResult
  | .media ts payload =>
      if s.openai_ws = some true then
        ⟨{ s with latest_media_timestamp := ts }, [],
         [OpenAIMsg.audioAppend payload]⟩
      else ⟨s, [], []⟩
  | .start sid =>
      ⟨{ s with
          stream_sid := some sid,
          response_start_timestamp_twilio := none,
          latest_media_timestamp := 0,
          last_assistant_item := none }, [], []⟩
  | .mark _ =>
      match s.mark_queue with
      | [] => ⟨s, [], []⟩
      | _ :: rest => ⟨{ s with mark_queue := rest }, [], []⟩
  | .other _ => ⟨s, [], []⟩

/-- Event dispatch of `TwilioRealtimeBridge._send_to_twilio`: audio deltas
go to `_handle_audio_delta`; a speech-started event triggers
`_handle_speech_started_event` only when `last_assistant_item` is truthy;
everything else is at most logged. -/
def handle_openai_event (s : BridgeState) : OpenAIEvent → StepResult
  | .audioDelta delta item_id => handle_audio_delta s delta item_id
  | .speechStarted =>
      if truthyStr s.last_assistant_item = true then handle_speech_started s
      else ⟨s, [], []⟩
  | .other _ => ⟨s, [], []⟩

/-- One interleaving step of the two relay loops. -/
def step (s : BridgeState) : BridgeEvent → StepResult
  | .fromTwilio e => handle_twilio_event s e
  | .fromOpenAI e => handle_openai_event s e

/-- State installed by `TwilioRealtimeBridge.__init__`; the speech-service
socket field is a parameter since `start()` replaces it before the relays
run. -/
def initState (ws : Option Bool) : BridgeState :=
  ⟨none, 0, none, [], none, ws⟩

/-- Process a list of events in arrival order, concatenating the writes
made to each socket. -/
def runTrace (s : BridgeState) : List BridgeEvent → StepResult
  | [] => ⟨s, [], []⟩
  | e :: rest =>
    let r := step s e
    let r2 := runTrace r.state rest
    ⟨r2.state, r.toTwilio ++ r2.toTwilio, r.toOpenAI ++ r2.toOpenAI⟩

/-- The value of `latest_media_timestamp` observed after each event of a
run of inbound `media` events. -/
def mediaTimestampTrace (s : BridgeState) : List (Int × String) → List Int
  | [] => []
  | (t, p) :: rest =>
    let s1 := (handle_twilio_event s (.media t p)).state
    s1.latest_media_timestamp :: mediaTimestampTrace s1 rest

/-- Python exceptions relevant to `TwilioRealtimeBridge.shutdown`. -/
inductive PyError where
  | cancelled
  | connClosed
  | runtimeErr
  | other (msg : String)
deriving DecidableEq, Repr

/-- Status of an `asyncio.Task` at the time `shutdown` runs: still running,
finished normally, finished by cancellation, or finished by raising the
recorded (non-cancellation) exception. -/
inductive TaskStatus where
  | running
  | doneOk
  | cancelledDone
  | failed (exc : String)
deriving DecidableEq, Repr

/-- `task.cancel()`: requests cancellation of a running task (which will
then finish cancelled); a no-op on any already-finished task.  Never
raises. -/
def cancelTask : TaskStatus → TaskStatus
  | .running => .cancelledDone
  | t => t

/-- `await task` on a finished task: returns for a normal result, raises
`asyncio.CancelledError` for a cancelled task, and re-raises the stored
exception for a failed task. -/
def awaitTask : TaskStatus → Except PyError Unit
  | .running => .ok ()
  | .doneOk => .ok ()
  | .cancelledDone => .error .cancelled
  | .failed e => .error (.other e)

/-- The second loop of `shutdown`: for each task,
`with contextlib.suppress(asyncio.CancelledError): await task`.  Only
`CancelledError` is suppressed; any other exception propagates out of the
loop at once. -/
def awaitAllSuppress : List TaskStatus → Except PyError Unit
  | [] => .ok ()
  | t :: rest =>
    match awaitTask t with
    | .ok _ => awaitAllSuppress rest
    | .error .cancelled => awaitAllSuppress rest
    | .error e => .error e

/-- Orchestrator-level state acted on by `shutdown`: the relay task list,
the speech-service socket (`none` once set to `None`, otherwise `some b`
with `b` recording whether it is still open) and whether the caller socket
is still open. -/
structure OrchestratorState where
  tasks : List TaskStatus
  openai_ws : Option Bool
  twilio_ws_open : Bool
deriving DecidableEq, Repr

/-- Closing the speech-service socket: raises `ConnectionClosed` when the
connection is already closed. -/
def closeOpenaiWs (isOpen : Bool) : Except PyError Unit :=
  if isOpen then .ok () else .error .connClosed

/-- Closing the caller socket: Starlette raises a `RuntimeError` when a
close message has already been sent. -/
def closeTwilioWs (isOpen : Bool) : Except PyError Unit :=
  if isOpen then .ok () else .error .runtimeErr

/-- `TwilioRealtimeBridge.shutdown`, step by step: cancel every task, await
every task suppressing only `CancelledError`, clear the task list; if the
speech-service socket object exists, close it suppressing
`ConnectionClosed` and drop the reference; close the caller socket
suppressing `RuntimeError`.  An `Except.error` result models `shutdown`
itself raising (which the surrounding `suppress` blocks do not prevent for
a non-`CancelledError` exception re-raised by `await task`). -/
def shutdownE (s : OrchestratorState) : Except PyError OrchestratorState :=
  match awaitAllSuppress (s.tasks.map cancelTask) with
  | .error e => .error e
  | .ok _ =>
    let s1 : OrchestratorState := { s with tasks := [] }
    let closedUpstream : Except PyError OrchestratorState :=
      match s1.openai_ws with
      | some isOpen =>
        match closeOpenaiWs isOpen with
        | .ok _ => .ok { s1 with openai_ws := none }
        | .error .connClosed => .ok { s1 with openai_ws := none }
        | .error e => .error e
      | none => .ok s1
    match closedUpstream with
    | .error e => .error e
    | .ok s2 =>
      match closeTwilioWs s2.twilio_ws_open with
      | .ok _ => .ok { s2 with twilio_ws_open := false }
      | .error .runtimeErr => .ok { s2 with twilio_ws_open := false }
      | .error e => .error e

/-! ### Base64 lemmas -/

lemma b64Val_b64Char : ∀ n, n < 64 → b64Val (b64Char n) = some n := by decide

lemma b64Char_ne_pad : ∀ n, n < 64 → b64Char n ≠ '=' := by decide

lemma b64Char_ascii : ∀ n, n < 64 → (b64Char n).toNat < 128 := by decide

lemma decode_char0 (k : Nat) (hk : k < 64) (rest : List Char)
    (leftchar pads : Nat) (acc : List Nat) :
    b64DecodeAux (b64Char k :: rest) 0 leftchar pads acc =
      b64DecodeAux rest 1 k 0 acc := by
  simp only [b64DecodeAux]
  rw [if_neg (b64Char_ne_pad k hk), b64Val_b64Char k hk]

lemma decode_char1 (k : Nat) (hk : k < 64) (rest : List Char)
    (leftchar pads : Nat) (acc : List Nat) :
    b64DecodeAux (b64Char k :: rest) 1 leftchar pads acc =
      b64DecodeAux rest 2 (k % 16) 0 ((leftchar * 4 + k / 16) :: acc) := by
  simp only [b64DecodeAux]
  rw [if_neg (b64Char_ne_pad k hk), b64Val_b64Char k hk]

lemma decode_char2 (k : Nat) (hk : k < 64) (rest : List Char)
    (leftchar pads : Nat) (acc : List Nat) :
    b64DecodeAux (b64Char k :: rest) 2 leftchar pads acc =
      b64DecodeAux rest 3 (k % 4) 0 ((leftchar * 16 + k / 4) :: acc) := by
  simp only [b64DecodeAux]
  rw [if_neg (b64Char_ne_pad k hk), b64Val_b64Char k hk]

lemma decode_char3 (k : Nat) (hk : k < 64) (rest : List Char)
    (leftchar pads : Nat) (acc : List Nat) :
    b64DecodeAux (b64Char k :: rest) 3 leftchar pads acc =
      b64DecodeAux rest 0 0 0 ((leftchar * 64 + k) :: acc) := by
  simp only [b64DecodeAux]
  rw [if_neg (b64Char_ne_pad k hk), b64Val_b64Char k hk]

lemma decode_pad_continue (rest : List Char) (leftchar : Nat) (acc : List Nat) :
    b64DecodeAux ('=' :: rest) 2 leftchar 0 acc =
      b64DecodeAux rest 2 leftchar 1 acc := by
  simp [b64DecodeAux]

lemma decode_pad_done2 (rest : List Char) (leftchar : Nat) (acc : List Nat) :
    b64DecodeAux ('=' :: rest) 2 leftchar 1 acc = some acc.reverse := by
  simp [b64DecodeAux]

lemma decode_pad_done3 (rest : List Char) (leftchar : Nat) (acc : List Nat) :
    b64DecodeAux ('=' :: rest) 3 leftchar 0 acc = some acc.reverse := by
  simp [b64DecodeAux]

/-- Every character produced by the base64 encoder of a byte list is
ASCII. -/
theorem b64EncodeChunks_ascii :
    ∀ (bs : List Nat), (∀ b ∈ bs, b < 256) →
      ∀ c ∈ b64EncodeChunks bs, c.toNat < 128
  | [], _, c, hc => by simp [b64EncodeChunks] at hc
  | [b1], h, c, hc => by
      have hb1 : b1 < 256 := h b1 (by simp)
      simp only [b64EncodeChunks, List.mem_cons, List.not_mem_nil,
        or_false] at hc
      rcases hc with h1 | h1 | h1 | h1 <;> subst h1
      · exact b64Char_ascii _ (by omega)
      · exact b64Char_ascii _ (by omega)
      · decide
      · decide
  | [b1, b2], h, c, hc => by
      have hb1 : b1 < 256 := h b1 (by simp)
      have hb2 : b2 < 256 := h b2 (by simp)
      simp only [b64EncodeChunks, List.mem_cons, List.not_mem_nil,
        or_false] at hc
      rcases hc with h1 | h1 | h1 | h1 <;> subst h1
      · exact b64Char_ascii _ (by omega)
      · exact b64Char_ascii _ (by omega)
      · exact b64Char_ascii _ (by omega)
      · decide
  | b1 :: b2 :: b3 :: rest, h, c, hc => by
      have hb1 : b1 < 256 := h b1 (by simp)
      have hb2 : b2 < 256 := h b2 (by simp)
      have hb3 : b3 < 256 := h b3 (by simp)
      have hc' : c = b64Char (b1 / 4) ∨ c = b64Char (b1 % 4 * 16 + b2 / 16) ∨
          c = b64Char (b2 % 16 * 4 + b3 / 64) ∨ c = b64Char (b3 % 64) ∨
          c ∈ b64EncodeChunks rest := by
        simpa [b64EncodeChunks, List.mem_cons] using hc
      rcases hc' with h1 | h1 | h1 | h1 | h1
      · subst h1; exact b64Char_ascii _ (by omega)
      · subst h1; exact b64Char_ascii _ (by omega)
      · subst h1; exact b64Char_ascii _ (by omega)
      · subst h1; exact b64Char_ascii _ (by omega)
      · exact b64EncodeChunks_ascii rest
          (fun b hb => h b (by simp [hb])) c h1

/-- Decoding the encoder's output reproduces the bytes, for any initial
accumulator. -/
theorem b64DecodeAux_encode :
    ∀ (bs : List Nat), (∀ b ∈ bs, b < 256) →
      ∀ acc, b64DecodeAux (b64EncodeChunks bs) 0 0 0 acc =
        some (acc.reverse ++ bs)
  | [], _, acc => by simp [b64EncodeChunks, b64DecodeAux]
  | [b1], h, acc => by
      have hb1 : b1 < 256 := h b1 (by simp)
      show b64DecodeAux
        (b64Char (b1 / 4) :: b64Char (b1 % 4 * 16) :: '=' :: '=' :: []) 0 0 0 acc
        = some (acc.reverse ++ [b1])
      rw [decode_char0 (b1 / 4) (by omega),
          decode_char1 (b1 % 4 * 16) (by omega),
          decode_pad_continue, decode_pad_done2]
      have hbyte : b1 / 4 * 4 + b1 % 4 * 16 / 16 = b1 := by omega
      rw [hbyte, List.reverse_cons]
  | [b1, b2], h, acc => by
      have hb1 : b1 < 256 := h b1 (by simp)
      have hb2 : b2 < 256 := h b2 (by simp)
      show b64DecodeAux
        (b64Char (b1 / 4) :: b64Char (b1 % 4 * 16 + b2 / 16) ::
          b64Char (b2 % 16 * 4) :: '=' :: []) 0 0 0 acc
        = some (acc.reverse ++ [b1, b2])
      rw [decode_char0 (b1 / 4) (by omega),
          decode_char1 (b1 % 4 * 16 + b2 / 16) (by omega),
          decode_char2 (b2 % 16 * 4) (by omega),
          decode_pad_done3]
      have hbyte1 : b1 / 4 * 4 + (b1 % 4 * 16 + b2 / 16) / 16 = b1 := by omega
      have hleft1 : (b1 % 4 * 16 + b2 / 16) % 16 = b2 / 16 := by omega
      have hbyte2 : b2 / 16 * 16 + b2 % 16 * 4 / 4 = b2 := by omega
      rw [hbyte1, hleft1, hbyte2]
      simp
  | b1 :: b2 :: b3 :: b4s, h, acc => by
      have hb1 : b1 < 256 := h b1 (by simp)
      have hb2 : b2 < 256 := h b2 (by simp)
      have hb3 : b3 < 256 := h b3 (by simp)
      show b64DecodeAux
        (b64Char (b1 / 4) :: b64Char (b1 % 4 * 16 + b2 / 16) ::
          b64Char (b2 % 16 * 4 + b3 / 64) :: b64Char (b3 % 64) ::
          b64EncodeChunks b4s) 0 0 0 acc
        = some (acc.reverse ++ (b1 :: b2 :: b3 :: b4s))
      rw [decode_char0 (b1 / 4) (by omega),
          decode_char1 (b1 % 4 * 16 + b2 / 16) (by omega),
          decode_char2 (b2 % 16 * 4 + b3 / 64) (by omega),
          decode_char3 (b3 % 64) (by omega)]
      have hbyte1 : b1 / 4 * 4 + (b1 % 4 * 16 + b2 / 16) / 16 = b1 := by omega
      have hleft1 : (b1 % 4 * 16 + b2 / 16) % 16 = b2 / 16 := by omega
      have hbyte2 : b2 / 16 * 16 + (b2 % 16 * 4 + b3 / 64) / 4 = b2 := by
        omega
      have hleft2 : (b2 % 16 * 4 + b3 / 64) % 4 = b3 / 64 := by omega
      have hbyte3 : b3 / 64 * 64 + b3 % 64 = b3 := by omega
      rw [hbyte1, hleft1, hbyte2, hleft2, hbyte3]
      rw [b64DecodeAux_encode b4s (fun b hb => h b (by simp [hb]))
          (b3 :: b2 :: b1 :: acc)]
      simp

/-- Round trip at the level of the Python functions used by
`_handle_audio_delta`: `b64decode` of a `b64encode` output recovers the
bytes. -/
theorem b64decodeStr_encodeStr (bs : List Nat) (h : ∀ b ∈ bs, b < 256) :
    b64decodeStr (b64encodeStr bs) = some bs := by
  unfold b64decodeStr b64encodeStr
  have htl : (String.mk (b64EncodeChunks bs)).toList = b64EncodeChunks bs :=
    rfl
  rw [htl]
  have hall : (b64EncodeChunks bs).all (fun c => decide (c.toNat < 128))
      = true := by
    rw [List.all_eq_true]
    intro c hc
    simpa using b64EncodeChunks_ascii bs h c hc
  rw [if_pos hall]
  simpa using b64DecodeAux_encode bs h []

/-! ### Bridge state lemmas -/

/-- Whether an event is a Twilio `start` event. -/
def isStart : BridgeEvent → Bool
  | .fromTwilio (.start _) => true
  | _ => false

/-- State in which no `start` event has been seen yet on the current
bridge. -/
def NoStreamYet (s : BridgeState) : Prop :=
  s.stream_sid = none ∧ s.last_assistant_item = none

/-- Invariant: whenever an utterance is tracked, it is a non-empty
identifier and the stream identifier is known and non-empty. -/
def UtteranceImpliesStream (s : BridgeState) : Prop :=
  ∀ u, s.last_assistant_item = some u →
    u ≠ "" ∧ ∃ sid, s.stream_sid = some sid ∧ sid ≠ ""

lemma truthyStr_eq_true {o : Option String} :
    truthyStr o = true ↔ ∃ u, o = some u ∧ u ≠ "" := by
  cases o <;> simp [truthyStr]

lemma truthyStr_eq_false {o : Option String} :
    truthyStr o = false ↔ o = none ∨ o = some "" := by
  cases o <;> simp [truthyStr]

lemma handle_audio_delta_fields (s : BridgeState) (delta : String)
    (iid : Option String) :
    (handle_audio_delta s delta iid).state.stream_sid = s.stream_sid ∧
    (handle_audio_delta s delta iid).state.latest_media_timestamp =
      s.latest_media_timestamp ∧
    (handle_audio_delta s delta iid).state.openai_ws = s.openai_ws := by
  unfold handle_audio_delta send_mark
  split
  · exact ⟨rfl, rfl, rfl⟩
  · split
    · exact ⟨rfl, rfl, rfl⟩
    · dsimp only
      split <;> split <;> exact ⟨rfl, rfl, rfl⟩

lemma step_no_stream (s : BridgeState) (e : BridgeEvent)
    (h : NoStreamYet s) (he : isStart e = false) :
    (step s e).toTwilio = [] ∧ NoStreamYet (step s e).state := by
  obtain ⟨h1, h2⟩ := h
  cases e with
  | fromTwilio te =>
    cases te with
    | media ts p =>
      simp only [step, handle_twilio_event]
      split <;> simp [NoStreamYet, h1, h2]
    | start sid => simp [isStart] at he
    | mark n =>
      simp only [step, handle_twilio_event]
      split <;> simp [NoStreamYet, h1, h2]
    | other ev => simp [step, handle_twilio_event, NoStreamYet, h1, h2]
  | fromOpenAI oe =>
    cases oe with
    | audioDelta delta iid =>
      simp only [step, handle_openai_event, handle_audio_delta]
      rw [if_pos (by rw [h1]; rfl)]
      simp [NoStreamYet, h1, h2]
    | speechStarted =>
      simp only [step, handle_openai_event]
      rw [if_neg (by rw [h2]; simp [truthyStr])]
      simp [NoStreamYet, h1, h2]
    | other t => simp [step, handle_openai_event, NoStreamYet, h1, h2]

lemma handle_audio_delta_no_stream (s : BridgeState) (delta : String)
    (iid : Option String) (hs : truthyStr s.stream_sid = false) :
    handle_audio_delta s delta iid = ⟨s, [], []⟩ := by
  simp [handle_audio_delta, hs]

lemma handle_audio_delta_decode_fail (s : BridgeState) (delta : String)
    (iid : Option String) (hd : b64decodeStr delta = none) :
    handle_audio_delta s delta iid = ⟨s, [], []⟩ := by
  unfold handle_audio_delta
  split
  · rfl
  · rw [hd]

lemma handle_audio_delta_ok_new (s : BridgeState) (delta : String)
    (iid : Option String) (decoded : List Nat)
    (hs : truthyStr s.stream_sid = true) (hd : b64decodeStr delta = some decoded)
    (h1 : truthyStr iid = true) (h2 : iid ≠ s.last_assistant_item) :
    handle_audio_delta s delta iid =
      ⟨{ s with
          response_start_timestamp_twilio := some s.latest_media_timestamp,
          last_assistant_item := iid,
          mark_queue := s.mark_queue ++ ["responsePart"] },
       [TwilioFrame.media s.stream_sid (b64encodeStr decoded),
        TwilioFrame.mark s.stream_sid "responsePart"], []⟩ := by
  simp [handle_audio_delta, send_mark, hs, hd, h1, h2]

lemma handle_audio_delta_ok_old (s : BridgeState) (delta : String)
    (iid : Option String) (decoded : List Nat)
    (hs : truthyStr s.stream_sid = true) (hd : b64decodeStr delta = some decoded)
    (hnot : ¬(truthyStr iid = true ∧ iid ≠ s.last_assistant_item)) :
    handle_audio_delta s delta iid =
      ⟨{ s with mark_queue := s.mark_queue ++ ["responsePart"] },
       [TwilioFrame.media s.stream_sid (b64encodeStr decoded),
        TwilioFrame.mark s.stream_sid "responsePart"], []⟩ := by
  simp only [handle_audio_delta, send_mark, hs, hd, Bool.true_eq_false,
    if_false, if_neg hnot]
  simp [hs]

lemma handle_speech_started_no_queue (s : BridgeState)
    (hq : s.mark_queue = []) : handle_speech_started s = ⟨s, [], []⟩ := by
  unfold handle_speech_started
  rw [hq]

lemma handle_speech_started_no_start_ts (s : BridgeState)
    (ht : s.response_start_timestamp_twilio = none) :
    handle_speech_started s = ⟨s, [], []⟩ := by
  unfold handle_speech_started
  rw [ht]
  cases s.mark_queue <;> rfl

lemma handle_speech_started_fire (s : BridgeState) (m : String)
    (ms : List String) (t0 : Int) (hq : s.mark_queue = m :: ms)
    (ht : s.response_start_timestamp_twilio = some t0) :
    (handle_speech_started s).state =
      { s with
          mark_queue := [],
          last_assistant_item := none,
          response_start_timestamp_twilio := none } ∧
    (handle_speech_started s).toTwilio = [TwilioFrame.clear s.stream_sid] := by
  unfold handle_speech_started
  rw [hq, ht]
  exact ⟨rfl, rfl⟩

lemma handle_speech_started_truncate (s : BridgeState) (u : String)
    (m : String) (ms : List String) (t0 : Int)
    (hq : s.mark_queue = m :: ms)
    (ht : s.response_start_timestamp_twilio = some t0)
    (hu : s.last_assistant_item = some u) (hune : u ≠ "")
    (hws : s.openai_ws.isSome = true) :
    (handle_speech_started s).toOpenAI =
      [OpenAIMsg.truncate u 0 (s.latest_media_timestamp - t0)] := by
  unfold handle_speech_started
  rw [hq, ht]
  simp [hu, hune, hws]

lemma step_utterance_inv (s : BridgeState) (e : BridgeEvent)
    (h : UtteranceImpliesStream s) :
    UtteranceImpliesStream (step s e).state := by
  cases e with
  | fromTwilio te =>
    cases te with
    | media ts p =>
      simp only [step, handle_twilio_event]
      split
      · intro u hu; exact h u hu
      · exact h
    | start sid =>
      intro u hu
      simp [step, handle_twilio_event] at hu
    | mark n =>
      simp only [step, handle_twilio_event]
      split
      · exact h
      · intro u hu; exact h u hu
    | other ev => exact h
  | fromOpenAI oe =>
    cases oe with
    | audioDelta delta iid =>
      show UtteranceImpliesStream (handle_audio_delta s delta iid).state
      rcases Bool.eq_false_or_eq_true (truthyStr s.stream_sid) with hs | hs
      · cases hd : b64decodeStr delta with
        | none => rw [handle_audio_delta_decode_fail s delta iid hd]; exact h
        | some decoded =>
          by_cases hnew : truthyStr iid = true ∧ iid ≠ s.last_assistant_item
          · rw [handle_audio_delta_ok_new s delta iid decoded hs hd hnew.1
              hnew.2]
            obtain ⟨sid, hsideq, hsidne⟩ := truthyStr_eq_true.mp hs
            obtain ⟨v, hveq, hvne⟩ := truthyStr_eq_true.mp hnew.1
            intro u hu
            simp only at hu
            rw [hveq] at hu
            obtain rfl : v = u := Option.some.inj hu
            exact ⟨hvne, sid, hsideq, hsidne⟩
          · rw [handle_audio_delta_ok_old s delta iid decoded hs hd hnew]
            intro u hu; exact h u hu
      · rw [handle_audio_delta_no_stream s delta iid hs]; exact h
    | speechStarted =>
      simp only [step, handle_openai_event]
      split
      · cases hq : s.mark_queue with
        | nil => rw [handle_speech_started_no_queue s hq]; exact h
        | cons m ms =>
          cases ht : s.response_start_timestamp_twilio with
          | none => rw [handle_speech_started_no_start_ts s ht]; exact h
          | some t0 =>
            rw [(handle_speech_started_fire s m ms t0 hq ht).1]
            intro u hu; simp at hu
      · exact h
    | other t => exact h

lemma step_clear_known (s : BridgeState) (e : BridgeEvent)
    (x : Option String) (h : UtteranceImpliesStream s)
    (hm : TwilioFrame.clear x ∈ (step s e).toTwilio) :
    ∃ sid, x = some sid ∧ sid ≠ "" := by
  cases e with
  | fromTwilio te =>
    cases te with
    | media ts p =>
      simp only [step, handle_twilio_event] at hm
      revert hm; split <;> (intro hm; simp at hm)
    | start sid => simp [step, handle_twilio_event] at hm
    | mark n =>
      simp only [step, handle_twilio_event] at hm
      revert hm; split <;> (intro hm; simp at hm)
    | other ev => simp [step, handle_twilio_event] at hm
  | fromOpenAI oe =>
    cases oe with
    | audioDelta delta iid =>
      replace hm : TwilioFrame.clear x ∈ (handle_audio_delta s delta iid).toTwilio := hm
      rcases Bool.eq_false_or_eq_true (truthyStr s.stream_sid) with hs | hs
      · cases hd : b64decodeStr delta with
        | none =>
          rw [handle_audio_delta_decode_fail s delta iid hd] at hm
          simp at hm
        | some decoded =>
          by_cases hnew : truthyStr iid = true ∧ iid ≠ s.last_assistant_item
          · rw [handle_audio_delta_ok_new s delta iid decoded hs hd hnew.1
              hnew.2] at hm
            simp at hm
          · rw [handle_audio_delta_ok_old s delta iid decoded hs hd hnew] at hm
            simp at hm
      · rw [handle_audio_delta_no_stream s delta iid hs] at hm; simp at hm
    | speechStarted =>
      simp only [step, handle_openai_event] at hm
      revert hm
      split
      · rename_i htr
        intro hm
        cases hq : s.mark_queue with
        | nil => rw [handle_speech_started_no_queue s hq] at hm; simp at hm
        | cons m ms =>
          cases ht : s.response_start_timestamp_twilio with
          | none =>
            rw [handle_speech_started_no_start_ts s ht] at hm
            simp at hm
          | some t0 =>
            rw [(handle_speech_started_fire s m ms t0 hq ht).2] at hm
            simp only [List.mem_singleton] at hm
            obtain ⟨u, hueq, _⟩ := truthyStr_eq_true.mp htr
            obtain ⟨_, sid, hsideq, hsidne⟩ := h u hueq
            obtain rfl : x = s.stream_sid := by
              cases hm; rfl
            exact ⟨sid, hsideq, hsidne⟩
      · intro hm; simp at hm
    | other t => simp [step, handle_openai_event] at hm

lemma runTrace_no_stream :
    ∀ (evs : List BridgeEvent) (s : BridgeState), NoStreamYet s →
      (∀ e ∈ evs, isStart e = false) →
      (runTrace s evs).toTwilio = [] ∧ NoStreamYet (runTrace s evs).state
  | [], s, h, _ => ⟨rfl, h⟩
  | e :: rest, s, h, he => by
    have h1 := step_no_stream s e h (he e (by simp))
    have h2 := runTrace_no_stream rest (step s e).state h1.2
      (fun x hx => he x (by simp [hx]))
    refine ⟨?_, h2.2⟩
    show (step s e).toTwilio ++ (runTrace (step s e).state rest).toTwilio = []
    rw [h1.1, h2.1]
    rfl

lemma runTrace_utterance_inv :
    ∀ (evs : List BridgeEvent) (s : BridgeState), UtteranceImpliesStream s →
      UtteranceImpliesStream (runTrace s evs).state
  | [], _, h => h
  | e :: rest, s, h =>
    runTrace_utterance_inv rest (step s e).state (step_utterance_inv s e h)

lemma runTrace_clear_known :
    ∀ (evs : List BridgeEvent) (s : BridgeState) (x : Option String),
      UtteranceImpliesStream s →
      TwilioFrame.clear x ∈ (runTrace s evs).toTwilio →
      ∃ sid, x = some sid ∧ sid ≠ ""
  | [], _, x, _, hm => by simp [runTrace] at hm
  | e :: rest, s, x, h, hm => by
    unfold runTrace at hm
    simp only [List.mem_append] at hm
    rcases hm with hm | hm
    · exact step_clear_known s e x h hm
    · exact runTrace_clear_known rest (step s e).state x
        (step_utterance_inv s e h) hm

lemma step_sid_not_none (s : BridgeState) (e : BridgeEvent)
    (h : s.stream_sid ≠ none) : (step s e).state.stream_sid ≠ none := by
  cases e with
  | fromTwilio te =>
    cases te with
    | media ts p =>
      simp only [step, handle_twilio_event]
      split <;> exact h
    | start sid => simp [step, handle_twilio_event]
    | mark n =>
      simp only [step, handle_twilio_event]
      split <;> exact h
    | other ev => exact h
  | fromOpenAI oe =>
    cases oe with
    | audioDelta delta iid =>
      show (handle_audio_delta s delta iid).state.stream_sid ≠ none
      rw [(handle_audio_delta_fields s delta iid).1]
      exact h
    | speechStarted =>
      simp only [step, handle_openai_event]
      split
      · cases hq : s.mark_queue with
        | nil => rw [handle_speech_started_no_queue s hq]; exact h
        | cons m ms =>
          cases ht : s.response_start_timestamp_twilio with
          | none => rw [handle_speech_started_no_start_ts s ht]; exact h
          | some t0 =>
            rw [(handle_speech_started_fire s m ms t0 hq ht).1]
            exact h
      · exact h
    | other t => exact h

/-- Helper: processing a `media` event while the speech-service socket is
open. -/
lemma handle_media_open (s : BridgeState) (t : Int) (p : String)
    (hws : s.openai_ws = some true) :
    handle_twilio_event s (.media t p) =
      ⟨{ s with latest_media_timestamp := t }, [],
       [OpenAIMsg.audioAppend p]⟩ := by
  simp [handle_twilio_event, hws]

lemma mediaTimestampTrace_eq :
    ∀ (ps : List (Int × String)) (s : BridgeState), s.openai_ws = some true →
      mediaTimestampTrace s ps = ps.map Prod.fst
  | [], _, _ => rfl
  | (t, p) :: rest, s, hws => by
    simp only [mediaTimestampTrace]
    rw [handle_media_open s t p hws]
    rw [mediaTimestampTrace_eq rest { s with latest_media_timestamp := t } hws]
    simp

/-- Guard of the Barge-In Controller, as combined by the outbound relay's
dispatch (`last_assistant_item` truthy) and the early return of
`_handle_speech_started_event` (`mark_queue` non-empty,
`response_start_timestamp_twilio` known). -/
def bargeInReady (s : BridgeState) : Prop :=
  truthyStr s.last_assistant_item = true ∧ s.mark_queue ≠ [] ∧
    s.response_start_timestamp_twilio ≠ none

instance (s : BridgeState) : Decidable (bargeInReady s) := by
  unfold bargeInReady
  infer_instance

/-! ### Claims -/

/-- C1: for every barge-in trigger processed while `currentUtteranceId`
(`last_assistant_item`) is set, `pendingAcks` (`mark_queue`) is non-empty
and `utteranceStartTimestampMs` (`response_start_timestamp_twilio`) is
known, the truncate instruction sent to the speech service carries
`audioEndMs = latest_media_timestamp - response_start_timestamp_twilio`
as read at trigger time, with `itemId` equal to the current utterance and
`contentIndex` 0. -/
theorem C1_truncate_carries_elapsed (s : BridgeState) (u : String) (t0 : Int)
    (hu : s.last_assistant_item = some u) (hune : u ≠ "")
    (hq : s.mark_queue ≠ []) (ht : s.response_start_timestamp_twilio = some t0)
    (hws : s.openai_ws.isSome = true) :
    (handle_openai_event s .speechStarted).toOpenAI =
      [OpenAIMsg.truncate u 0 (s.latest_media_timestamp - t0)] := by
  cases hq' : s.mark_queue with
  | nil => exact absurd hq' hq
  | cons m ms =>
    have hdis : truthyStr s.last_assistant_item = true := by
      rw [hu]; simp [truthyStr, hune]
    simp only [handle_openai_event, if_pos hdis]
    exact handle_speech_started_truncate s u m ms t0 hq' ht hu hune hws

/-- C1 witness: utterance start recorded at 500 and latest media timestamp
1800 yield a truncate with `audioEndMs` 1300 for the current utterance at
content index 0. -/
theorem C1_truncate_carries_elapsed_witness :
    (handle_openai_event
      ⟨some "MZ1", 1800, some "itemA", ["responsePart"], some 500, some true⟩
      .speechStarted).toOpenAI = [OpenAIMsg.truncate "itemA" 0 1300] := by
  have h := C1_truncate_carries_elapsed
    ⟨some "MZ1", 1800, some "itemA", ["responsePart"], some 500, some true⟩
    "itemA" 500 rfl (by decide) (by decide) rfl rfl
  exact h.trans (by decide)

/-- C2: starting from the freshly initialized bridge, a trace with no
`start` event produces no caller-socket write at all (in particular an
audio delta arriving while `stream_sid` is unknown produces none), and in
any trace every `clear` frame that is written carries a known, non-empty
stream identifier. -/
theorem C2_no_caller_write_before_start (ws : Option Bool)
    (evs : List BridgeEvent) :
    ((∀ e ∈ evs, isStart e = false) →
      (runTrace (initState ws) evs).toTwilio = []) ∧
    (∀ x, TwilioFrame.clear x ∈ (runTrace (initState ws) evs).toTwilio →
      ∃ sid, x = some sid ∧ sid ≠ "") := by
  constructor
  · intro he
    exact (runTrace_no_stream evs (initState ws) ⟨rfl, rfl⟩ he).1
  · intro x hm
    exact runTrace_clear_known evs (initState ws) x
      (fun u hu => by simp [initState] at hu) hm

/-- C2 witness: an audio delta (and a media event) before any `start`
event cause no caller-socket write. -/
theorem C2_no_caller_write_before_start_witness :
    (runTrace (initState (some true))
      [BridgeEvent.fromOpenAI (.audioDelta "AA==" (some "A")),
       BridgeEvent.fromTwilio (.media 5 "p")]).toTwilio = [] :=
  (C2_no_caller_write_before_start (some true)
    [BridgeEvent.fromOpenAI (.audioDelta "AA==" (some "A")),
     BridgeEvent.fromTwilio (.media 5 "p")]).1 (by decide)

/-- C3: the claim that `shutdown` never raises fails on the code.  In the
prior state where a relay task has finished by raising a non-cancellation
exception (a fatal relay failure, e.g. malformed JSON), `shutdown` awaits
that task under `contextlib.suppress(asyncio.CancelledError)` only, so the
stored exception is re-raised out of `shutdown`. -/
theorem C3_shutdown_raises_after_relay_failure :
    shutdownE ⟨[TaskStatus.failed "JSONDecodeError", TaskStatus.running],
      some true, true⟩ = .error (.other "JSONDecodeError") := rfl

/-- C4: the Barge-In Controller is a no-op (no truncate, no clear, state
unchanged) unless the utterance is set, the ack queue non-empty and the
utterance start timestamp known; when it runs with those set it sends the
clear frame and leaves `mark_queue` empty, `last_assistant_item` none and
`response_start_timestamp_twilio` none, so a subsequent `mark` event is a
no-op on the empty queue. -/
theorem C4_barge_in_guard_and_reset (s : BridgeState) (name : String) :
    (¬ bargeInReady s →
      handle_openai_event s .speechStarted = ⟨s, [], []⟩) ∧
    (bargeInReady s →
      (handle_openai_event s .speechStarted).toTwilio =
        [TwilioFrame.clear s.stream_sid] ∧
      (handle_openai_event s .speechStarted).state.mark_queue = [] ∧
      (handle_openai_event s .speechStarted).state.last_assistant_item
        = none ∧
      (handle_openai_event s
        .speechStarted).state.response_start_timestamp_twilio = none ∧
      handle_twilio_event (handle_openai_event s .speechStarted).state
        (.mark name) =
        ⟨(handle_openai_event s .speechStarted).state, [], []⟩) := by
  constructor
  · intro hnot
    rcases Bool.eq_false_or_eq_true (truthyStr s.last_assistant_item) with
      hl | hl
    · simp only [handle_openai_event, if_pos hl]
      cases hq : s.mark_queue with
      | nil => exact handle_speech_started_no_queue s hq
      | cons m ms =>
        cases ht : s.response_start_timestamp_twilio with
        | none => exact handle_speech_started_no_start_ts s ht
        | some t0 =>
          exact absurd ⟨hl, by rw [hq]; simp, by rw [ht]; simp⟩ hnot
    · simp only [handle_openai_event]
      rw [if_neg (by rw [hl]; simp)]
  · rintro ⟨hl, hq, ht⟩
    cases hq' : s.mark_queue with
    | nil => exact absurd hq' hq
    | cons m ms =>
      cases ht' : s.response_start_timestamp_twilio with
      | none => exact absurd ht' ht
      | some t0 =>
        simp only [handle_openai_event, if_pos hl]
        have hf := handle_speech_started_fire s m ms t0 hq' ht'
        refine ⟨hf.2, ?_, ?_, ?_, ?_⟩
        · rw [hf.1]
        · rw [hf.1]
        · rw [hf.1]
        · rw [hf.1]
          rfl

/-- C4 witness: with no utterance in progress the speech-started event is a
no-op; after a real barge-in the queue is empty and a subsequent `mark`
event is a no-op. -/
theorem C4_barge_in_guard_and_reset_witness :
    handle_openai_event ⟨some "MZ1", 100, none, [], none, some true⟩
      .speechStarted =
      ⟨⟨some "MZ1", 100, none, [], none, some true⟩, [], []⟩ ∧
    (handle_openai_event
      ⟨some "MZ1", 1800, some "itemA", ["responsePart"], some 500, some true⟩
      .speechStarted).state.mark_queue = [] ∧
    handle_twilio_event
      (handle_openai_event
        ⟨some "MZ1", 1800, some "itemA", ["responsePart"], some 500,
          some true⟩ .speechStarted).state (.mark "responsePart") =
      ⟨(handle_openai_event
        ⟨some "MZ1", 1800, some "itemA", ["responsePart"], some 500,
          some true⟩ .speechStarted).state, [], []⟩ :=
  ⟨(C4_barge_in_guard_and_reset
      ⟨some "MZ1", 100, none, [], none, some true⟩ "responsePart").1
      (by decide),
   ((C4_barge_in_guard_and_reset
      ⟨some "MZ1", 1800, some "itemA", ["responsePart"], some 500, some true⟩
      "responsePart").2 (by decide)).2.1,
   ((C4_barge_in_guard_and_reset
      ⟨some "MZ1", 1800, some "itemA", ["responsePart"], some 500, some true⟩
      "responsePart").2 (by decide)).2.2.2.2⟩

/-- C5 counterexample: the claim as stated is false when the delta's
payload does not decode.  With `stream_sid` known, latest media timestamp
500, no current utterance, and a delta with itemId `"A"` but undecodable
payload `"A"`, the handler drops the frame: neither
`response_start_timestamp_twilio` becomes 500 nor
`last_assistant_item` becomes `"A"`. -/
theorem C5_counterexample :
    truthyStr (BridgeState.mk (some "MZ1") 500 none [] none
      (some true)).stream_sid = true ∧
    (some "A" : Option String) ≠ (BridgeState.mk (some "MZ1") 500 none []
      none (some true)).last_assistant_item ∧
    b64decodeStr "A" = none ∧
    (handle_audio_delta (BridgeState.mk (some "MZ1") 500 none [] none
      (some true)) "A" (some "A")).state.response_start_timestamp_twilio
      ≠ some 500 ∧
    (handle_audio_delta (BridgeState.mk (some "MZ1") 500 none [] none
      (some true)) "A" (some "A")).state.last_assistant_item
      ≠ some "A" := by decide

/-- C5 (amended with the hypothesis that the delta's payload decodes
successfully): for every audio-delta processed with `stream_sid` known,
whose payload is well-formed and whose itemId is present, non-empty and
differs from `last_assistant_item`, the handler sets
`response_start_timestamp_twilio` to the `latest_media_timestamp` in
effect and `last_assistant_item` to that itemId. -/
theorem C5_new_item_sets_start (s : BridgeState) (delta : String)
    (decoded : List Nat) (u : String)
    (hs : truthyStr s.stream_sid = true)
    (hd : b64decodeStr delta = some decoded)
    (hiu : u ≠ "") (hne : some u ≠ s.last_assistant_item) :
    (handle_audio_delta s delta
      (some u)).state.response_start_timestamp_twilio =
      some s.latest_media_timestamp ∧
    (handle_audio_delta s delta (some u)).state.last_assistant_item
      = some u := by
  have h1 : truthyStr (some u) = true := by simp [truthyStr, hiu]
  rw [handle_audio_delta_ok_new s delta (some u) decoded hs hd h1 hne]
  exact ⟨rfl, rfl⟩

/-- C5 witness: media timestamp 500 followed by a well-formed delta with
itemId `"A"` yields start timestamp 500 and current utterance `"A"`. -/
theorem C5_new_item_sets_start_witness :
    (handle_audio_delta
      ⟨some "MZ1", 500, none, [], none, some true⟩ "AA=="
      (some "A")).state.response_start_timestamp_twilio = some 500 ∧
    (handle_audio_delta
      ⟨some "MZ1", 500, none, [], none, some true⟩ "AA=="
      (some "A")).state.last_assistant_item = some "A" :=
  C5_new_item_sets_start ⟨some "MZ1", 500, none, [], none, some true⟩
    "AA==" [0] "A" (by decide) (by decide) (by decide) (by decide)

/-- C6: a `start` event stores the new stream identifier and resets
`latest_media_timestamp` to 0, `last_assistant_item` to none and
`response_start_timestamp_twilio` to none, from every prior state. -/
theorem C6_start_resets (s : BridgeState) (sid : String) :
    handle_twilio_event s (.start sid) =
      ⟨{ s with
          stream_sid := some sid,
          latest_media_timestamp := 0,
          last_assistant_item := none,
          response_start_timestamp_twilio := none }, [], []⟩ := rfl

/-- C7 counterexample: the claim's unconditional monotonicity is false on
the code, which stores each inbound timestamp as-is.  Feeding media
timestamps 500 then 300 makes `latest_media_timestamp` take the values
500, 300 — a decreasing sequence. -/
theorem C7_counterexample :
    mediaTimestampTrace (initState (some true)) [(500, "p"), (300, "q")]
      = [500, 300] ∧
    ¬ List.Chain' (· ≤ ·)
      (mediaTimestampTrace (initState (some true))
        [(500, "p"), (300, "q")]) := by
  constructor
  · rfl
  · intro hc
    have h1 : mediaTimestampTrace (initState (some true))
        [(500, "p"), (300, "q")] = [500, 300] := rfl
    rw [h1, List.chain'_cons] at hc
    exact absurd hc.1 (by decide)

/-- C7 (amended with the hypothesis that inbound timestamps are
non-decreasing): after each processed `media` event,
`latest_media_timestamp` equals that event's timestamp (the observed value
sequence is exactly the inbound timestamp sequence), and if the inbound
timestamps are non-decreasing then so is the sequence of values the field
takes. -/
theorem C7_media_timestamp_tracks (s : BridgeState)
    (ps : List (Int × String)) (hws : s.openai_ws = some true) :
    mediaTimestampTrace s ps = ps.map Prod.fst ∧
    (List.Chain' (· ≤ ·) (ps.map Prod.fst) →
      List.Chain' (· ≤ ·) (mediaTimestampTrace s ps)) := by
  have h := mediaTimestampTrace_eq ps s hws
  exact ⟨h, fun hc => h ▸ hc⟩

/-- C7 witness: timestamps 500 then 1800 are tracked exactly and the value
sequence is non-decreasing. -/
theorem C7_media_timestamp_tracks_witness :
    mediaTimestampTrace (initState (some true)) [(500, "x"), (1800, "y")]
      = [500, 1800] ∧
    List.Chain' (· ≤ ·)
      (mediaTimestampTrace (initState (some true))
        [(500, "x"), (1800, "y")]) :=
  ⟨(C7_media_timestamp_tracks (initState (some true))
      [(500, "x"), (1800, "y")] rfl).1.trans (by decide),
   (C7_media_timestamp_tracks (initState (some true))
      [(500, "x"), (1800, "y")] rfl).2
     (by norm_num [List.chain'_cons])⟩

/-- C8 counterexample: the claim's pass-through equality is false for a
well-formed but non-canonical payload.  `"AB=="` decodes successfully (to
the single byte 0), yet the outbound media frame carries the re-encoding
`"AA==" ≠ "AB=="`. -/
theorem C8_counterexample :
    b64decodeStr "AB==" = some [0] ∧
    (handle_audio_delta ⟨some "MZ1", 0, none, [], none, some true⟩
      "AB==" none).toTwilio =
      [TwilioFrame.media (some "MZ1") "AA==",
       TwilioFrame.mark (some "MZ1") "responsePart"] ∧
    "AA==" ≠ "AB==" := by decide

/-- C8 (amended to canonical payloads): for every audio-delta processed
with `stream_sid` known whose payload is the base64 encoding of some byte
sequence, the outbound media frame carries exactly the delta's payload
(the decode/re-encode step is the identity on canonical encodings). -/
theorem C8_passthrough_canonical (s : BridgeState) (bs : List Nat)
    (iid : Option String) (hs : truthyStr s.stream_sid = true)
    (hb : ∀ b ∈ bs, b < 256) :
    (handle_audio_delta s (b64encodeStr bs) iid).toTwilio =
      [TwilioFrame.media s.stream_sid (b64encodeStr bs),
       TwilioFrame.mark s.stream_sid "responsePart"] := by
  have hd := b64decodeStr_encodeStr bs hb
  by_cases hnew : truthyStr iid = true ∧ iid ≠ s.last_assistant_item
  · rw [handle_audio_delta_ok_new s (b64encodeStr bs) iid bs hs hd hnew.1
      hnew.2]
  · rw [handle_audio_delta_ok_old s (b64encodeStr bs) iid bs hs hd hnew]

/-- C8 witness: the canonical encoding of bytes `[0, 255]` is passed
through unchanged. -/
theorem C8_passthrough_canonical_witness :
    (handle_audio_delta ⟨some "MZ1", 0, none, [], none, some true⟩
      (b64encodeStr [0, 255]) none).toTwilio =
      [TwilioFrame.media (some "MZ1") (b64encodeStr [0, 255]),
       TwilioFrame.mark (some "MZ1") "responsePart"] :=
  C8_passthrough_canonical ⟨some "MZ1", 0, none, [], none, some true⟩
    [0, 255] none (by decide) (by decide)

/-- C9: a delta whose payload fails to decode is dropped without raising:
the handler leaves the state unchanged and writes nothing to either
socket, and the relay's subsequent processing is exactly as if the frame
had never arrived. -/
theorem C9_decode_failure_drops_frame (s : BridgeState) (payload : String)
    (iid : Option String) (hd : b64decodeStr payload = none) :
    handle_openai_event s (.audioDelta payload iid) = ⟨s, [], []⟩ ∧
    ∀ rest, runTrace s
      (BridgeEvent.fromOpenAI (.audioDelta payload iid) :: rest) =
      runTrace s rest := by
  have hstep : step s (.fromOpenAI (.audioDelta payload iid)) = ⟨s, [], []⟩ :=
    handle_audio_delta_decode_fail s payload iid hd
  refine ⟨hstep, fun rest => ?_⟩
  simp only [runTrace, hstep, List.nil_append]

/-- C9 witness: the undecodable payload `"A"` is dropped with no state
change and no output. -/
theorem C9_decode_failure_drops_frame_witness :
    handle_openai_event ⟨some "MZ1", 42, none, [], none, some true⟩
      (.audioDelta "A" (some "X")) =
      ⟨⟨some "MZ1", 42, none, [], none, some true⟩, [], []⟩ :=
  (C9_decode_failure_drops_frame
    ⟨some "MZ1", 42, none, [], none, some true⟩ "A" (some "X")
    (by decide)).1

/-- C10: in every reachable state, a set `last_assistant_item` implies a
known non-empty `stream_sid`; consequently every barge-in `clear` frame
carries a known non-empty stream identifier; and no event ever resets
`stream_sid` back to none. -/
theorem C10_utterance_implies_stream (ws : Option Bool)
    (evs : List BridgeEvent) :
    UtteranceImpliesStream (runTrace (initState ws) evs).state ∧
    (∀ x, TwilioFrame.clear x ∈ (runTrace (initState ws) evs).toTwilio →
      ∃ sid, x = some sid ∧ sid ≠ "") ∧
    (∀ (s : BridgeState) (e : BridgeEvent), s.stream_sid ≠ none →
      (step s e).state.stream_sid ≠ none) := by
  have hinv0 : UtteranceImpliesStream (initState ws) :=
    fun u hu => by simp [initState] at hu
  exact ⟨runTrace_utterance_inv evs (initState ws) hinv0,
    fun x hm => runTrace_clear_known evs (initState ws) x hinv0 hm,
    step_sid_not_none⟩

/-- C10 witness: in a run with a start, a media frame, an audio delta and
a barge-in, the emitted clear frame's stream identifier is known and
non-empty. -/
theorem C10_utterance_implies_stream_witness :
    ∃ sid, (some "MZ1" : Option String) = some sid ∧ sid ≠ "" :=
  (C10_utterance_implies_stream (some true)
    [BridgeEvent.fromTwilio (.start "MZ1"),
     BridgeEvent.fromTwilio (.media 500 "p"),
     BridgeEvent.fromOpenAI (.audioDelta "AA==" (some "A")),
     BridgeEvent.fromOpenAI .speechStarted]).2.1
    (some "MZ1") (by decide)

end TwilioOpenAI
